import Mathlib

/-!
Verification of the policy-assignment resolution logic of the
Arena-Baselines repository (files `train.py` and `main.py`).

The embedding models the Python fragments that the claims are about:

* decimal rendering of integers (Python `str(i)` / `"{}".format(i)`),
* Python `str.split(sep)` for a non-empty separator,
* Python `int(s)` on an optionally signed, whitespace-padded decimal string
  (restricted to ASCII digits, which is all the repository ever feeds it),
* the policy/mapping/trainable-set resolution performed inside `run` of
  `train.py` (lines 126-247), with console I/O made explicit as an event
  trace, and exceptions modelled with `Except`,
* the independent-learners setup of `main.py` (lines 51-76), including its
  agent-coverage check.

Python dictionaries are modelled as association lists in insertion order.
-/

deriving instance DecidableEq for Except

/-- Decimal ASCII digit test: the characters `'0'`-`'9'` (code points 48-57).
Python's `int` accepts exactly these in the decimal digit position of an
ASCII string (for non-ASCII strings it also accepts other Unicode decimal
digits, which are outside this model). -/
def isDecDigit (c : Char) : Bool :=
  48 ≤ c.toNat && c.toNat ≤ 57

/-- Whitespace stripped by Python's `int(str)`: space, tab, newline, vertical
tab, form feed, carriage return (code points 9-13 and 32; CPython's `int`
rejects the other `str.isspace` ASCII characters `'\x1c'`-`'\x1f'`). -/
def pyWs (c : Char) : Bool :=
  c.toNat = 32 || c.toNat = 9 || c.toNat = 10 || c.toNat = 11 || c.toNat = 12 || c.toNat = 13

/-- Worker for the digit run of Python 3's `int`: having already read digits
of value `acc`, consume further digits, where a single `'_'` may stand
between two digits (PEP 515 underscore grouping, as in `int("1_0") = 10`);
a leading, trailing, doubled or otherwise misplaced underscore fails. -/
def pyDigitsValAux : Nat → List Char → Option Nat
  | acc, [] => some acc
  | acc, c :: cs =>
    if isDecDigit c then pyDigitsValAux (10 * acc + (c.toNat - 48)) cs
    else if c = '_' then
      match cs with
      | c2 :: cs2 =>
        if isDecDigit c2 then pyDigitsValAux (10 * acc + (c2.toNat - 48)) cs2 else none
      | [] => none
    else none

/-- Value of a digit run as Python 3's `int` reads it: a leading decimal
digit followed by digits with single underscores allowed between digits;
anything else (including the empty list) is `none`. -/
def pyDigitsVal (cs : List Char) : Option Nat :=
  match cs with
  | [] => none
  | c :: rest => if isDecDigit c then pyDigitsValAux (c.toNat - 48) rest else none

/-- Core of Python `int(s)` after whitespace stripping: an optional single
sign followed by a non-empty digit run (with PEP 515 underscores). -/
def pyIntCore (cs : List Char) : Option Int :=
  if cs.head? = some '+' then (pyDigitsVal cs.tail).map (fun n => (n : Int))
  else if cs.head? = some '-' then (pyDigitsVal cs.tail).map (fun n => -(n : Int))
  else (pyDigitsVal cs).map (fun n => (n : Int))

/-- Strip leading and trailing Python whitespace from a character list. -/
def stripWs (cs : List Char) : List Char :=
  ((cs.dropWhile pyWs).reverse.dropWhile pyWs).reverse

/-- Python `int(s)` for a decimal string: strip whitespace, then an optional
sign and a non-empty digit run with single underscores between digits;
`none` models the `ValueError`.  This agrees with CPython's `int` on every
string of ASCII characters (checked differentially against CPython over the
full ASCII alphabet); on non-ASCII strings CPython additionally accepts
Unicode decimal digits and Unicode whitespace, which are outside this
model, so theorems about failure are stated for ASCII identifiers only. -/
def pyInt (s : String) : Option Int :=
  pyIntCore (stripWs s.data)

/-- Test whether `pat` is an initial segment of `l` (used by the split). -/
def hasPfx : List Char → List Char → Bool
  | [], _ => true
  | _ :: _, [] => false
  | p :: ps, c :: cs => p == c && hasPfx ps cs

/-- Fuel-driven worker for Python `str.split(sep)` with non-empty `sep`:
scan left to right, cutting at each leftmost non-overlapping occurrence of
`sep`.  With `fuel ≥` the length of the scanned list the fuel never runs
out; fuel makes the recursion structural so that proofs can evaluate it. -/
def splitOnFuel (sep : List Char) : Nat → List Char → List Char → List (List Char)
  | _, acc, [] => [acc.reverse]
  | 0, acc, l => [acc.reverse ++ l]
  | fuel + 1, acc, c :: cs =>
    if hasPfx sep (c :: cs) then
      acc.reverse :: splitOnFuel sep fuel [] (cs.drop (sep.length - 1))
    else
      splitOnFuel sep fuel (c :: acc) cs

/-- Python `s.split(sep)` for a non-empty separator `sep` (the repository
only ever splits on `agent_id_prefix + "_"`, which is non-empty). -/
def pySplit (s sep : String) : List String :=
  (splitOnFuel sep.data s.data.length [] s.data).map String.mk

/-- Fuel-driven decimal rendering worker: emits the digits of `n` in front
of `acc`.  `fuel > n` suffices, since `n` has at most `n + 1` digits. -/
def toDecimalAux : Nat → Nat → List Char → List Char
  | 0, _, acc => acc
  | fuel + 1, n, acc =>
    let d := Nat.digitChar (n % 10)
    if n < 10 then d :: acc else toDecimalAux fuel (n / 10) (d :: acc)

/-- Decimal rendering of a natural number, as Python `str` writes it. -/
def decRepr (n : Nat) : String :=
  String.mk (toDecimalAux (n + 1) n [])

/-- Decimal rendering of an integer, as Python `str` writes it. -/
def pyStrOfInt (i : Int) : String :=
  if i < 0 then "-" ++ decRepr i.natAbs else decRepr i.natAbs

/-! ## Data model of the resolver (train.py) -/

/-- Opaque gym space descriptor.  The code only ever inspects the name of
the space's Python class (`act_space.__class__.__name__`), kept in
`className`; `payload` stands for the rest of the opaque object. -/
structure GymSpace where
  className : String
  payload : String
deriving DecidableEq

/-- The two deterministic action distributions `train.py` can select:
`DeterministicCategorical` for a `Discrete` action space and rllib's
`Deterministic` for a `Box` action space. -/
inductive ActionDist where
  | deterministicCategorical
  | deterministic
deriving DecidableEq

/-- A policy specification tuple `(policy_class, obs_space, act_space,
extra_options)`; the code always passes `None` for the class, and the extra
options are `{}` or `{"custom_action_dist": dist}`. -/
structure PolicySpec where
  policyCls : Option String
  obsSpace : GymSpace
  actSpace : GymSpace
  extraOptions : List (String × ActionDist)
deriving DecidableEq

/-- The Python exceptions the modelled code can raise. -/
inductive PyError where
  | notImplementedError
  | indexError
  | valueError
  | exception (msg : String)
deriving DecidableEq

/-- Console interaction performed by `run` of train.py: the `print` call at
line 142 and the blocking `input` call at line 227. -/
inductive ConsoleEvent where
  | printed (s : String)
  | prompted (s : String)
deriving DecidableEq

/-- Constant `POLICY_ID_PREFIX = "policy"` of train.py (and the equal
module variable `policy_id_prefix` of main.py). -/
def policyIdPfx : String := "policy"

/-- Constant `SELFPLAY_POLICY_TO_TRAIN = 0` of train.py. -/
def selfplayPolicyToTrain : Nat := 0

/-- Function `get_policy_id(policy_i)` of train.py/main.py:
`"{}_{}".format(POLICY_ID_PREFIX, policy_i)`. -/
def get_policy_id (i : Int) : String :=
  policyIdPfx ++ "_" ++ pyStrOfInt i

/-- Dispatch of train.py lines 160-181: choose the deterministic action
distribution from the action space's class name, raising
`NotImplementedError` for any class other than `Discrete` and `Box`. -/
def buildActionDist (act : GymSpace) : Except PyError ActionDist :=
  if act.className = "Discrete" then Except.ok ActionDist.deterministicCategorical
  else if act.className = "Box" then Except.ok ActionDist.deterministic
  else Except.error PyError.notImplementedError

/-- Construction of the `self_play` policies dict (train.py lines 144-189),
kept as the pair (entries inserted so far, error if one was raised): the
learning policy at index 0 is inserted first, then `run` is checked to be
`"PPO"` (line 157), then the action distribution is selected, and only then
are the playing policies for indices `1 .. number_agents - 1` inserted. -/
def selfPlayPoliciesTrace (runAlg : String) (n : Nat) (obs act : GymSpace) :
    List (String × PolicySpec) × Option PyError :=
  let p0 : List (String × PolicySpec) :=
    [(get_policy_id (Int.ofNat selfplayPolicyToTrain), PolicySpec.mk none obs act [])]
  if runAlg = "PPO" then
    match buildActionDist act with
    | Except.error e => (p0, some e)
    | Except.ok d =>
      (p0 ++ (List.range' 1 (n - 1)).map
        (fun i => (get_policy_id (Int.ofNat i),
          PolicySpec.mk none obs act [("custom_action_dist", d)])), none)
  else (p0, some PyError.notImplementedError)

/-- First strategy dispatch of train.py (lines 130-192), building the
`policies` dict together with the console events it emits.  Python's
`x in ["independent"]` is equality with `"independent"`, and likewise for
`"self_play"`; any other string reaches the final `raise
NotImplementedError`. -/
def buildPoliciesEv (runAlg strategy : String) (n : Nat) (obs act : GymSpace) :
    List ConsoleEvent × Except PyError (List (String × PolicySpec)) :=
  if strategy = "independent" then
    ([], Except.ok ((List.range n).map
      (fun i => (get_policy_id (Int.ofNat i), PolicySpec.mk none obs act []))))
  else if strategy = "self_play" then
    ([ConsoleEvent.printed "# WARNING: Testing....."],
      match selfPlayPoliciesTrace runAlg n obs act with
      | (_, some e) => Except.error e
      | (ps, none) => Except.ok ps)
  else ([], Except.error PyError.notImplementedError)

/-- Index extraction of train.py lines 202-203:
`int(agent_id.split(agent_id_prefix + "_")[1])`.  The `[1]` raises
`IndexError` when the separator does not occur, and `int` raises
`ValueError` when the segment is not an integer literal. -/
def get_agent_i (agentIdPfx0 agent_id : String) : Except PyError Int :=
  match (pySplit agent_id (agentIdPfx0 ++ "_")).get? 1 with
  | none => Except.error PyError.indexError
  | some seg =>
    match pyInt seg with
    | none => Except.error PyError.valueError
    | some i => Except.ok i

/-- Mapping closure `policy_mapping_fn_i2i` of train.py lines 205-206:
`get_policy_id(get_agent_i(agent_id))`, with the agent-id prefix it
captured as its first argument. -/
def policy_mapping_fn_i2i (agentIdPfx0 agent_id : String) : Except PyError String :=
  (get_agent_i agentIdPfx0 agent_id).map get_policy_id

/-- Second strategy dispatch of train.py (lines 195-212): for both
recognized strategies the mapping function is `policy_mapping_fn_i2i`
closed over the probe environment's agent-id prefix, which this model
returns as the closure's captured data. -/
def buildMappingPfx (strategy pfx : String) : Except PyError String :=
  if strategy = "independent" ∨ strategy = "self_play" then Except.ok pfx
  else Except.error PyError.notImplementedError

/-- Third strategy dispatch of train.py (lines 214-230), building
`policies_to_train` together with the console events it emits (the blocking
`input("# TODO: load learning agent")` of the `self_play` branch). -/
def buildPoliciesToTrainEv (strategy : String) (policies : List (String × PolicySpec)) :
    List ConsoleEvent × Except PyError (List String) :=
  if strategy = "independent" then
    ([], Except.ok (policies.map Prod.fst))
  else if strategy = "self_play" then
    ([ConsoleEvent.prompted "# TODO: load learning agent"],
      Except.ok [get_policy_id (Int.ofNat selfplayPolicyToTrain)])
  else ([], Except.error PyError.notImplementedError)

/-- Keys of the assembled `multiagent` dict (train.py lines 233-244): each
of the three entries is inserted exactly when its value is not `None`. -/
def multiagentKeysOf (hasPolicies hasMapping hasToTrain : Bool) : List String :=
  (if hasPolicies then ["policies"] else []) ++
  (if hasMapping then ["policy_mapping_fn"] else []) ++
  (if hasToTrain then ["policies_to_train"] else [])

/-- Result of a successful resolution: the `policies` dict in insertion
order, the agent-id prefix captured by the mapping closure (the mapping
function itself is `policy_mapping_fn_i2i agentIdPfx`), the
`policies_to_train` list, and the keys of the assembled `multiagent` dict. -/
structure ResolveOutput where
  policies : List (String × PolicySpec)
  agentIdPfx : String
  policies_to_train : List String
  multiagentKeys : List String
deriving DecidableEq

/-- The policy-assignment resolution of train.py `run` (lines 126-244) for
one arena experiment: the three phases in source order, the console events
they emit, and the first raised exception, if any, as the `Except` error. -/
def resolve (runAlg strategy : String) (n : Nat) (obs act : GymSpace) (pfx : String) :
    List ConsoleEvent × Except PyError ResolveOutput :=
  match buildPoliciesEv runAlg strategy n obs act with
  | (ev1, Except.error e) => (ev1, Except.error e)
  | (ev1, Except.ok policies) =>
    match buildMappingPfx strategy pfx with
    | Except.error e => (ev1, Except.error e)
    | Except.ok mpfx =>
      match buildPoliciesToTrainEv strategy policies with
      | (ev3, Except.error e) => (ev1 ++ ev3, Except.error e)
      | (ev3, Except.ok ptt) =>
        (ev1 ++ ev3,
          Except.ok (ResolveOutput.mk policies mpfx ptt (multiagentKeysOf true true true)))

/-! ## Dictionary model and the experiment-config update -/

/-- Lookup in a Python dict modelled as an association list: the first
entry with the key. -/
def dictGet {V : Type} (d : List (String × V)) (k : String) : Option V :=
  match d with
  | [] => none
  | (k', v) :: rest => if k' = k then some v else dictGet rest k

/-- Assignment `d[k] = v` in a Python dict: replace the value in place when
the key exists, append the new entry otherwise. -/
def dictSet {V : Type} (d : List (String × V)) (k : String) (v : V) : List (String × V) :=
  match d with
  | [] => [(k, v)]
  | (k', v') :: rest => if k' = k then (k, v) :: rest else (k', v') :: dictSet rest k v

/-- Deletion `del d[k]` in a Python dict (keys are unique, so removing
every entry with the key is the same as removing the one entry). -/
def dictDel {V : Type} (d : List (String × V)) (k : String) : List (String × V) :=
  match d with
  | [] => []
  | (k', v) :: rest => if k' = k then dictDel rest k else (k', v) :: dictDel rest k

/-- Value stored in the experiment's `config` dict: the assembled
`multiagent` sub-dict, or any other configuration entry left opaque. -/
inductive ConfigVal where
  | multiagent (out : ResolveOutput)
  | other (tag : String)
deriving DecidableEq

/-- Update of the experiment config by `run` of train.py after a successful
resolution (lines 233-247): `exp["config"]["multiagent"] = ...` followed by
`del exp["config"]["policy_assignment"]`. -/
def applyMultiagentUpdate (config : List (String × ConfigVal)) (out : ResolveOutput) :
    List (String × ConfigVal) :=
  dictDel (dictSet config "multiagent" (ConfigVal.multiagent out)) "policy_assignment"

/-! ## The environment's agent identifiers and the main.py setup -/

/-- Modelled from the spec: the probe environment's `get_agent_id(i)` (the
`ArenaRllibEnv` class is not under `src/`); per the spec's data model an
agent identifier follows the fixed naming convention `"<prefix>_<index>"`
with a zero-based decimal index. -/
def envAgentId (pfx : String) (i : Nat) : String :=
  pfx ++ "_" ++ decRepr i

/-- Modelled from the spec: the probe environment's `get_agent_ids()` (the
`ArenaRllibEnv` class is not under `src/`); one identifier per agent slot,
indices `0 .. number_agents - 1`. -/
def envAgentIds (pfx : String) (n : Nat) : List String :=
  (List.range n).map (envAgentId pfx)

/-- Policy dict built by main.py lines 55-58: one spec per agent index,
with `None` class and empty extra options. -/
def mainPolicies (n : Nat) (obs act : GymSpace) : List (String × PolicySpec) :=
  (List.range n).map
    (fun i => (get_policy_id (Int.ofNat i), PolicySpec.mk none obs act []))

/-- Dict `agent_id_to_policy_id` built by main.py lines 61-70: for the
`independent` assignment each agent id is mapped to the policy with the
same index; any other assignment raises `NotImplementedError`. -/
def mainAgentToPolicy (strategy pfx : String) (n : Nat) :
    Except PyError (List (String × String)) :=
  if strategy = "independent" then
    Except.ok ((List.range n).map
      (fun i => (envAgentId pfx i, get_policy_id (Int.ofNat i))))
  else Except.error PyError.notImplementedError

/-- Coverage check of main.py lines 72-76: walk the environment's agent
ids and raise `Exception` at the first one that is not a key of
`agent_id_to_policy_id`. -/
def coverageCheck (m : List (String × String)) (ids : List String) : Except PyError Unit :=
  match ids with
  | [] => Except.ok ()
  | a :: rest =>
    if (dictGet m a).isSome then coverageCheck m rest
    else Except.error (PyError.exception
      ("All agent_id has to be mentioned in agent_id_to_policy_id.keys(). agent_id of "
        ++ a ++ " is not mentioned"))

/-! ## Lemmas about decimal rendering and parsing -/

theorem digitChar_toNat (m : Nat) (h : m < 10) : (Nat.digitChar m).toNat = 48 + m := by
  interval_cases m <;> rfl

theorem digitChar_isDecDigit (m : Nat) (h : m < 10) : isDecDigit (Nat.digitChar m) = true := by
  interval_cases m <;> rfl

theorem isDecDigit_facts {c : Char} (h : isDecDigit c = true) :
    pyWs c = false ∧ c ≠ '+' ∧ c ≠ '-' := by
  have hn : 48 ≤ c.toNat ∧ c.toNat ≤ 57 := by
    simpa [isDecDigit] using h
  refine ⟨?_, ?_, ?_⟩
  · simp only [pyWs, Bool.or_eq_false_iff, decide_eq_false_iff_not]
    omega
  · intro hc; subst hc; simp [isDecDigit] at h
  · intro hc; subst hc; simp [isDecDigit] at h

theorem dropWhile_of_all_neg {α : Type} {p : α → Bool} :
    ∀ {l : List α}, (∀ c ∈ l, p c = false) → l.dropWhile p = l := by
  intro l
  induction l with
  | nil => intro _; rfl
  | cons c cs _ =>
    intro h
    simp [List.dropWhile, h c (List.mem_cons_self c cs)]

theorem stripWs_of_all_digits {l : List Char} (h : ∀ c ∈ l, isDecDigit c = true) :
    stripWs l = l := by
  have h1 : ∀ c ∈ l, pyWs c = false := fun c hc => (isDecDigit_facts (h c hc)).1
  unfold stripWs
  rw [dropWhile_of_all_neg h1,
    dropWhile_of_all_neg (fun c hc => h1 c (List.mem_reverse.mp hc)),
    List.reverse_reverse]

theorem toDecimalAux_spec :
    ∀ n fuel acc, n < fuel →
      ∃ ds, toDecimalAux fuel n acc = ds ++ acc ∧ ds ≠ [] ∧
        (∀ c ∈ ds, isDecDigit c = true) ∧
        ds.foldl (fun m c => 10 * m + (c.toNat - 48)) 0 = n := by
  intro n
  induction n using Nat.strong_induction_on with
  | _ n ih =>
    intro fuel acc hf
    cases fuel with
    | zero => omega
    | succ f =>
      by_cases h10 : n < 10
      · refine ⟨[Nat.digitChar (n % 10)], ?_, by simp, ?_, ?_⟩
        · simp [toDecimalAux, h10]
        · intro c hc
          simp at hc
          subst hc
          exact digitChar_isDecDigit _ (Nat.mod_lt _ (by norm_num))
        · have := digitChar_toNat (n % 10) (Nat.mod_lt _ (by norm_num))
          simp [this]
          omega
      · have hn0 : 0 < n := by omega
        have hdiv : n / 10 < n := Nat.div_lt_self hn0 (by norm_num)
        have hfu : n / 10 < f := by omega
        obtain ⟨ds', he, hne, hdig, hval⟩ :=
          ih (n / 10) hdiv f (Nat.digitChar (n % 10) :: acc) hfu
        refine ⟨ds' ++ [Nat.digitChar (n % 10)], ?_, by simp [hne], ?_, ?_⟩
        · simp only [toDecimalAux, h10, if_false]
          rw [he, List.append_assoc, List.singleton_append]
        · intro c hc
          rcases List.mem_append.mp hc with h | h
          · exact hdig c h
          · simp at h
            subst h
            exact digitChar_isDecDigit _ (Nat.mod_lt _ (by norm_num))
        · rw [List.foldl_append, hval]
          have := digitChar_toNat (n % 10) (Nat.mod_lt _ (by norm_num))
          simp [this]
          omega

theorem decRepr_data_spec (n : Nat) :
    (decRepr n).data ≠ [] ∧ (∀ c ∈ (decRepr n).data, isDecDigit c = true) ∧
      (decRepr n).data.foldl (fun m c => 10 * m + (c.toNat - 48)) 0 = n := by
  obtain ⟨ds, he, hne, hdig, hval⟩ := toDecimalAux_spec n (n + 1) [] (by omega)
  have hd : (decRepr n).data = ds := by
    show toDecimalAux (n + 1) n [] = ds
    rw [he, List.append_nil]
  rw [hd]
  exact ⟨hne, hdig, hval⟩

theorem pyDigitsValAux_digits :
    ∀ (cs : List Char) (acc : Nat), (∀ c ∈ cs, isDecDigit c = true) →
      pyDigitsValAux acc cs =
        some (cs.foldl (fun m c => 10 * m + (c.toNat - 48)) acc) := by
  intro cs
  induction cs with
  | nil => intro acc _; rfl
  | cons c rest ih =>
    intro acc h
    have hc : isDecDigit c = true := h c (List.mem_cons_self c rest)
    have hstep : pyDigitsValAux acc (c :: rest) =
        pyDigitsValAux (10 * acc + (c.toNat - 48)) rest := by
      rw [pyDigitsValAux.eq_def]
      simp [hc]
    rw [hstep,
      ih (10 * acc + (c.toNat - 48)) (fun x hx => h x (List.mem_cons_of_mem c hx)),
      List.foldl_cons]

theorem pyDigitsVal_digits {l : List Char} (hne : l ≠ [])
    (hdig : ∀ c ∈ l, isDecDigit c = true) :
    pyDigitsVal l = some (l.foldl (fun m c => 10 * m + (c.toNat - 48)) 0) := by
  obtain ⟨c, rest, rfl⟩ := List.exists_cons_of_ne_nil hne
  have hc := hdig c (List.mem_cons_self c rest)
  simp [pyDigitsVal, hc, List.foldl_cons,
    pyDigitsValAux_digits rest (c.toNat - 48)
      (fun x hx => hdig x (List.mem_cons_of_mem c hx))]

theorem pyIntCore_digits {l : List Char} (hne : l ≠ [])
    (hdig : ∀ c ∈ l, isDecDigit c = true) :
    pyIntCore l = (pyDigitsVal l).map (fun n => (n : Int)) := by
  obtain ⟨c, rest, rfl⟩ := List.exists_cons_of_ne_nil hne
  obtain ⟨-, hplus, hminus⟩ := isDecDigit_facts (hdig c (List.mem_cons_self c rest))
  simp [pyIntCore, hplus, hminus]

theorem pyInt_decRepr (n : Nat) : pyInt (decRepr n) = some (Int.ofNat n) := by
  obtain ⟨hne, hdig, hval⟩ := decRepr_data_spec n
  unfold pyInt
  rw [stripWs_of_all_digits hdig, pyIntCore_digits hne hdig,
    pyDigitsVal_digits hne hdig, hval]
  rfl

theorem decRepr_injective {a b : Nat} (h : decRepr a = decRepr b) : a = b := by
  have h2 := congrArg pyInt h
  rw [pyInt_decRepr, pyInt_decRepr] at h2
  simpa using h2

/-! ## Lemmas about the split -/

theorem hasPfx_self_append : ∀ (pat rest : List Char), hasPfx pat (pat ++ rest) = true := by
  intro pat
  induction pat with
  | nil => intro rest; rfl
  | cons p ps ih => intro rest; simp [hasPfx, ih rest]

theorem mem_of_hasPfx : ∀ {pat l : List Char}, hasPfx pat l = true → ∀ c ∈ pat, c ∈ l := by
  intro pat
  induction pat with
  | nil => intro l _ c hc; simp at hc
  | cons p ps ih =>
    intro l h c hc
    cases l with
    | nil => simp [hasPfx] at h
    | cons x xs =>
      simp only [hasPfx, Bool.and_eq_true, beq_iff_eq] at h
      rcases List.mem_cons.mp hc with rfl | hc'
      · rw [h.1]; exact List.mem_cons_self x xs
      · exact List.mem_cons_of_mem x (ih h.2 c hc')

theorem splitOnFuel_no_match (sep : List Char) :
    ∀ (l acc : List Char) (fuel : Nat),
      (∀ j, hasPfx sep (l.drop j) = false) →
      splitOnFuel sep fuel acc l = [acc.reverse ++ l] := by
  intro l
  induction l with
  | nil => intro acc fuel _; cases fuel <;> simp [splitOnFuel]
  | cons c cs ih =>
    intro acc fuel h
    have h0 : hasPfx sep (c :: cs) = false := h 0
    cases fuel with
    | zero => simp [splitOnFuel]
    | succ f =>
      rw [splitOnFuel, if_neg (by simp [h0])]
      rw [ih (c :: acc) f (fun j => by simpa using h (j + 1))]
      simp

theorem splitOnFuel_sep_digits (q : Char) (qs ds : List Char)
    (hnosub : ∀ j, hasPfx (q :: qs) (ds.drop j) = false) :
    splitOnFuel (q :: qs) ((q :: qs) ++ ds).length [] ((q :: qs) ++ ds) = [[], ds] := by
  have hfuel : ((q :: qs) ++ ds).length = (qs ++ ds).length + 1 := by simp
  rw [hfuel]
  show splitOnFuel (q :: qs) ((qs ++ ds).length + 1) [] (q :: (qs ++ ds)) = [[], ds]
  have hp : hasPfx (q :: qs) (q :: (qs ++ ds)) = true := by
    simpa using hasPfx_self_append (q :: qs) ds
  rw [splitOnFuel, if_pos hp]
  have hdrop : (qs ++ ds).drop ((q :: qs).length - 1) = ds := by
    simp [List.drop_left]
  rw [hdrop, splitOnFuel_no_match (q :: qs) ds [] (qs ++ ds).length hnosub]
  rfl

theorem string_eq_of_data {s t : String} (h : s.data = t.data) : s = t :=
  congrArg String.mk h

theorem pySplit_canonical (pfx : String) (ds : List Char)
    (hdig : ∀ c ∈ ds, isDecDigit c = true) :
    pySplit (String.mk (pfx.data ++ '_' :: ds)) (pfx ++ "_") = ["", String.mk ds] := by
  have hsep : (pfx ++ "_").data = pfx.data ++ ['_'] := by
    rw [String.data_append]
  have hnosub : ∀ j, hasPfx (pfx.data ++ ['_']) (ds.drop j) = false := by
    intro j
    by_contra hcon
    rw [Bool.not_eq_false] at hcon
    have hu : ('_' : Char) ∈ ds.drop j :=
      mem_of_hasPfx hcon '_' (List.mem_append_right _ (by simp))
    have hmem : ('_' : Char) ∈ ds := List.drop_subset j ds hu
    have := hdig _ hmem
    simp [isDecDigit] at this
  obtain ⟨q, qs, hq⟩ : ∃ q qs, pfx.data ++ ['_'] = q :: qs := by
    cases hp : pfx.data with
    | nil => exact ⟨'_', [], by simp [hp]⟩
    | cons x xs => exact ⟨x, xs ++ ['_'], by simp [hp]⟩
  have hlist : pfx.data ++ '_' :: ds = (pfx.data ++ ['_']) ++ ds := by
    rw [List.append_assoc, List.singleton_append]
  unfold pySplit
  rw [hsep]
  show (splitOnFuel (pfx.data ++ ['_']) (pfx.data ++ '_' :: ds).length []
      (pfx.data ++ '_' :: ds)).map String.mk = ["", String.mk ds]
  rw [hlist, hq, splitOnFuel_sep_digits q qs ds (hq ▸ hnosub)]
  rfl

/-! ## Round-trip of the naming conventions -/

theorem envAgentId_data (pfx : String) (i : Nat) :
    (envAgentId pfx i).data = pfx.data ++ '_' :: (decRepr i).data := by
  show ((pfx ++ "_") ++ decRepr i).data = pfx.data ++ '_' :: (decRepr i).data
  rw [String.data_append, String.data_append]
  rw [List.append_assoc]
  rfl

theorem get_agent_i_canonical (pfx : String) (i : Nat) :
    get_agent_i pfx (envAgentId pfx i) = Except.ok (Int.ofNat i) := by
  obtain ⟨-, hdig, -⟩ := decRepr_data_spec i
  have hid : envAgentId pfx i = String.mk (pfx.data ++ '_' :: (decRepr i).data) :=
    string_eq_of_data (envAgentId_data pfx i)
  unfold get_agent_i
  rw [hid, pySplit_canonical pfx (decRepr i).data hdig]
  have hmk : String.mk (decRepr i).data = decRepr i := rfl
  rw [hmk]
  show (match ((["", decRepr i] : List String).get? 1) with
    | none => Except.error PyError.indexError
    | some seg =>
      match pyInt seg with
      | none => Except.error PyError.valueError
      | some j => Except.ok j) = Except.ok (Int.ofNat i)
  simp [pyInt_decRepr]

theorem mapping_canonical (pfx : String) (i : Nat) :
    policy_mapping_fn_i2i pfx (envAgentId pfx i) = Except.ok (get_policy_id (Int.ofNat i)) := by
  unfold policy_mapping_fn_i2i
  rw [get_agent_i_canonical]
  rfl

theorem get_policy_id_ofNat (i : Nat) :
    get_policy_id (Int.ofNat i) = "policy_" ++ decRepr i := by
  have h1 : ¬ (Int.ofNat i < 0) := by simp
  unfold get_policy_id pyStrOfInt
  rw [if_neg h1, (rfl : (Int.ofNat i).natAbs = i)]
  rfl

/-! ## Lemmas about the dictionary model -/

theorem dictGet_dictSet_self {V : Type} (d : List (String × V)) (k : String) (v : V) :
    dictGet (dictSet d k v) k = some v := by
  induction d with
  | nil => simp [dictGet, dictSet]
  | cons e rest ih =>
    obtain ⟨k', v'⟩ := e
    by_cases h : k' = k
    · simp [dictSet, dictGet, h]
    · simp [dictSet, dictGet, h, ih]

theorem dictGet_dictSet_other {V : Type} (d : List (String × V)) (k k' : String) (v : V)
    (h : k' ≠ k) : dictGet (dictSet d k v) k' = dictGet d k' := by
  have hk : k ≠ k' := Ne.symm h
  induction d with
  | nil => simp [dictGet, dictSet, hk]
  | cons e rest ih =>
    obtain ⟨k0, v0⟩ := e
    by_cases h0 : k0 = k
    · subst h0
      simp [dictSet, dictGet, hk]
    · simp [dictSet, dictGet, h0, ih]

theorem dictGet_dictDel_self {V : Type} (d : List (String × V)) (k : String) :
    dictGet (dictDel d k) k = none := by
  induction d with
  | nil => rfl
  | cons e rest ih =>
    obtain ⟨k0, v0⟩ := e
    by_cases h0 : k0 = k
    · simp [dictDel, h0, ih]
    · simp [dictDel, dictGet, h0, ih]

theorem dictGet_dictDel_other {V : Type} (d : List (String × V)) (k k' : String)
    (h : k' ≠ k) : dictGet (dictDel d k) k' = dictGet d k' := by
  have hk : k ≠ k' := Ne.symm h
  induction d with
  | nil => rfl
  | cons e rest ih =>
    obtain ⟨k0, v0⟩ := e
    by_cases h0 : k0 = k
    · subst h0
      simp [dictDel, dictGet, hk, ih]
    · simp [dictDel, dictGet, h0, ih]

theorem dictGet_append_left {V : Type} {d1 : List (String × V)} (d2 : List (String × V))
    {k : String} {v : V} (h : dictGet d1 k = some v) :
    dictGet (d1 ++ d2) k = some v := by
  induction d1 with
  | nil => simp [dictGet] at h
  | cons e rest ih =>
    obtain ⟨k0, v0⟩ := e
    by_cases h0 : k0 = k
    · simp only [dictGet, h0, if_pos rfl] at h ⊢
      simpa using h
    · simp only [List.cons_append, dictGet, h0, if_neg h0] at h ⊢
      exact ih h

theorem dictGet_append_right {V : Type} {d1 : List (String × V)} (d2 : List (String × V))
    {k : String} (h : dictGet d1 k = none) :
    dictGet (d1 ++ d2) k = dictGet d2 k := by
  induction d1 with
  | nil => rfl
  | cons e rest ih =>
    obtain ⟨k0, v0⟩ := e
    by_cases h0 : k0 = k
    · simp [dictGet, h0] at h
    · simp only [dictGet, h0, if_neg h0] at h
      simp only [List.cons_append, dictGet, if_neg h0]
      exact ih h

theorem dictGet_map_range_none {V : Type} (key : Nat → String) (val : Nat → V) (k : String) :
    ∀ n, (∀ j, j < n → key j ≠ k) →
      dictGet ((List.range n).map (fun j => (key j, val j))) k = none := by
  intro n
  induction n with
  | zero => intro _; rfl
  | succ m ih =>
    intro h
    rw [List.range_succ, List.map_append]
    rw [dictGet_append_right _ (ih (fun j hj => h j (by omega)))]
    simp [dictGet, h m (by omega)]

theorem dictGet_map_range {V : Type} (key : Nat → String) (val : Nat → V)
    (hinj : ∀ a b, key a = key b → a = b) :
    ∀ n i, i < n →
      dictGet ((List.range n).map (fun j => (key j, val j))) (key i) = some (val i) := by
  intro n
  induction n with
  | zero => intro i hi; omega
  | succ m ih =>
    intro i hi
    rw [List.range_succ, List.map_append]
    by_cases h : i < m
    · exact dictGet_append_left _ (ih i h)
    · have hi' : i = m := by omega
      subst hi'
      rw [dictGet_append_right _
        (dictGet_map_range_none key val (key i) i
          (fun j hj he => by have := hinj j i he; omega))]
      simp [dictGet]

/-! ## Claim theorems -/

/-- C8: Round-trip of the naming conventions: for every agent-id prefix
string `p` and every natural number `i`, the resolver's mapping function
applied to the agent identifier `p ++ "_" ++ decimal i` returns exactly the
policy identifier `"policy_" ++ decimal i`. -/
theorem agent_id_policy_id_roundtrip (p : String) (i : Nat) :
    policy_mapping_fn_i2i p (p ++ "_" ++ decRepr i) = Except.ok ("policy_" ++ decRepr i) := by
  rw [← get_policy_id_ofNat]
  exact mapping_canonical p i

/-- C1: for strategy `"independent"` with `number_agents ≥ 1` the resolver
produces exactly `number_agents` policy specs, one per agent index
`0 .. number_agents - 1`, each with an empty extra-options mapping; the
mapping function sends agent index `i` to policy index `i` for every `i`;
and the trainable set is exactly the list of all `number_agents` policy
ids. -/
theorem independent_assignment_spec (runAlg pfx : String) (n : Nat) (obs act : GymSpace)
    (h : 1 ≤ n) :
    (resolve runAlg "independent" n obs act pfx).2 =
      Except.ok (ResolveOutput.mk
        ((List.range n).map
          (fun i => (get_policy_id (Int.ofNat i), PolicySpec.mk none obs act [])))
        pfx
        (((List.range n).map
          (fun i => (get_policy_id (Int.ofNat i), PolicySpec.mk none obs act []))).map Prod.fst)
        ["policies", "policy_mapping_fn", "policies_to_train"]) ∧
    ((List.range n).map
      (fun i => (get_policy_id (Int.ofNat i), PolicySpec.mk none obs act []))).length = n ∧
    (∀ e ∈ (List.range n).map
      (fun i => (get_policy_id (Int.ofNat i), PolicySpec.mk none obs act [])),
      e.2.extraOptions = ([] : List (String × ActionDist))) ∧
    (((List.range n).map
      (fun i => (get_policy_id (Int.ofNat i), PolicySpec.mk none obs act []))).map Prod.fst =
      (List.range n).map (fun i => get_policy_id (Int.ofNat i))) ∧
    (∀ i : Nat, policy_mapping_fn_i2i pfx (pfx ++ "_" ++ decRepr i) =
      Except.ok (get_policy_id (Int.ofNat i))) := by
  refine ⟨rfl, ?_, ?_, ?_, ?_⟩
  · simp
  · intro e he
    simp only [List.mem_map, List.mem_range] at he
    obtain ⟨j, -, rfl⟩ := he
    rfl
  · simp
  · intro i
    exact mapping_canonical pfx i

/-- Witness for C1 at `number_agents = 3`. -/
theorem independent_assignment_spec_witness :
    (resolve "PPO" "independent" 3 (GymSpace.mk "Box" "obs") (GymSpace.mk "Discrete" "act")
        "agent").2 =
      Except.ok (ResolveOutput.mk
        ((List.range 3).map
          (fun i => (get_policy_id (Int.ofNat i),
            PolicySpec.mk none (GymSpace.mk "Box" "obs") (GymSpace.mk "Discrete" "act") [])))
        "agent"
        (((List.range 3).map
          (fun i => (get_policy_id (Int.ofNat i),
            PolicySpec.mk none (GymSpace.mk "Box" "obs")
              (GymSpace.mk "Discrete" "act") []))).map Prod.fst)
        ["policies", "policy_mapping_fn", "policies_to_train"]) :=
  (independent_assignment_spec "PPO" "agent" 3 (GymSpace.mk "Box" "obs")
    (GymSpace.mk "Discrete" "act") (by norm_num)).1

/-- C9: under strategy `"self_play"` the resolver additionally requires the
experiment's run algorithm to be `"PPO"`: for every other run value it
raises `NotImplementedError` after the designated trainable policy spec has
been constructed (the partial dict holds exactly that one entry) and before
any playing policy spec is constructed. -/
theorem self_play_requires_ppo (runAlg pfx : String) (n : Nat) (obs act : GymSpace)
    (h : runAlg ≠ "PPO") :
    selfPlayPoliciesTrace runAlg n obs act =
      ([(get_policy_id (Int.ofNat selfplayPolicyToTrain), PolicySpec.mk none obs act [])],
        some PyError.notImplementedError) ∧
    resolve runAlg "self_play" n obs act pfx =
      ([ConsoleEvent.printed "# WARNING: Testing....."],
        Except.error PyError.notImplementedError) := by
  have h1 : selfPlayPoliciesTrace runAlg n obs act =
      ([(get_policy_id (Int.ofNat selfplayPolicyToTrain), PolicySpec.mk none obs act [])],
        some PyError.notImplementedError) := by
    simp [selfPlayPoliciesTrace, h]
  refine ⟨h1, ?_⟩
  simp [resolve, buildPoliciesEv, h1]

/-- Witness for C9 with run algorithm `"DQN"`. -/
theorem self_play_requires_ppo_witness :
    selfPlayPoliciesTrace "DQN" 2 (GymSpace.mk "Box" "obs") (GymSpace.mk "Discrete" "act") =
      ([(get_policy_id (Int.ofNat selfplayPolicyToTrain),
        PolicySpec.mk none (GymSpace.mk "Box" "obs") (GymSpace.mk "Discrete" "act") [])],
        some PyError.notImplementedError) ∧
    resolve "DQN" "self_play" 2 (GymSpace.mk "Box" "obs") (GymSpace.mk "Discrete" "act")
        "agent" =
      ([ConsoleEvent.printed "# WARNING: Testing....."],
        Except.error PyError.notImplementedError) :=
  self_play_requires_ppo "DQN" "agent" 2 (GymSpace.mk "Box" "obs")
    (GymSpace.mk "Discrete" "act") (by decide)

/-- C4 counterexample: the identifier `"xagent_3"` is not of the exact form
`"agent" ++ "_" ++ decimal index`, yet the mapping function does not fail on
it: it returns the guessed policy id `"policy_3"`. -/
theorem agent_id_parsing_counterexample :
    policy_mapping_fn_i2i "agent" "xagent_3" = Except.ok "policy_3" ∧
    (∀ k : Nat, "xagent_3" ≠ "agent" ++ "_" ++ decRepr k) := by
  constructor
  · decide
  · intro k h
    have h2 := congrArg String.data h
    rw [String.data_append, String.data_append] at h2
    have h3 : "xagent_3".data = ['x', 'a', 'g', 'e', 'n', 't', '_', '3'] := rfl
    have h4 : "agent".data = ['a', 'g', 'e', 'n', 't'] := rfl
    have h5 : "_".data = ['_'] := rfl
    rw [h3, h4, h5] at h2
    simp at h2

/-- C4 (amended): identifiers of the exact form `prefix ++ "_" ++ decimal i`
always succeed under the mapping function, returning `"policy_" ++ decimal
i`; the mapping fails with `IndexError` when the separator does not occur in
the identifier, and — for identifiers of ASCII characters, on which the
`pyInt` model agrees with CPython's `int` exactly — with `ValueError` when
the segment after the first occurrence does not parse under Python's
integer grammar (optional sign, decimal digits with single underscores
between digits, surrounding whitespace); identifiers of other shapes can
also succeed, returning a guessed policy id: extra text before the prefix,
a signed or padded index, or a PEP 515 underscore-grouped index, as in the
identifier `"agent_1_0"`, which maps to `"policy_10"` since
`int("1_0") = 10`. -/
theorem agent_id_parsing_spec (p s : String) :
    ((pySplit s (p ++ "_")).get? 1 = none →
      policy_mapping_fn_i2i p s = Except.error PyError.indexError) ∧
    (∀ seg, (∀ c ∈ s.data, c.toNat < 128) →
      (pySplit s (p ++ "_")).get? 1 = some seg → pyInt seg = none →
      policy_mapping_fn_i2i p s = Except.error PyError.valueError) ∧
    (∀ i : Nat, s = p ++ "_" ++ decRepr i →
      policy_mapping_fn_i2i p s = Except.ok ("policy_" ++ decRepr i)) ∧
    policy_mapping_fn_i2i "agent" "agent_1_0" = Except.ok "policy_10" := by
  refine ⟨?_, ?_, ?_, ?_⟩
  · intro h
    rw [List.get?_eq_getElem?] at h
    simp [policy_mapping_fn_i2i, get_agent_i, h, Except.map]
  · intro seg _ h1 h2
    rw [List.get?_eq_getElem?] at h1
    simp [policy_mapping_fn_i2i, get_agent_i, h1, h2, Except.map]
  · intro i h
    subst h
    rw [← get_policy_id_ofNat]
    exact mapping_canonical p i
  · decide

/-- C10: after a successful resolution for an arena environment the
experiment config no longer contains the key `"policy_assignment"`, the key
`"multiagent"` holds the resolver's output, and the entry of every other key
is unchanged. -/
theorem config_update_spec (config : List (String × ConfigVal)) (out : ResolveOutput) :
    dictGet (applyMultiagentUpdate config out) "policy_assignment" = none ∧
    dictGet (applyMultiagentUpdate config out) "multiagent" =
      some (ConfigVal.multiagent out) ∧
    (∀ k, k ≠ "policy_assignment" → k ≠ "multiagent" →
      dictGet (applyMultiagentUpdate config out) k = dictGet config k) := by
  refine ⟨?_, ?_, ?_⟩
  · exact dictGet_dictDel_self _ _
  · rw [applyMultiagentUpdate, dictGet_dictDel_other _ _ _ (by decide),
      dictGet_dictSet_self]
  · intro k hk1 hk2
    rw [applyMultiagentUpdate, dictGet_dictDel_other _ _ _ hk1,
      dictGet_dictSet_other _ _ _ _ hk2]

/-- C6: whenever resolution succeeds (which happens only for the recognized
strategies), the assembled multiagent mapping contains exactly the three
keys `"policies"`, `"policy_mapping_fn"` and `"policies_to_train"`. -/
theorem multiagent_keys_spec (runAlg strategy : String) (n : Nat) (obs act : GymSpace)
    (pfx : String) (out : ResolveOutput)
    (h : (resolve runAlg strategy n obs act pfx).2 = Except.ok out) :
    out.multiagentKeys = ["policies", "policy_mapping_fn", "policies_to_train"] := by
  unfold resolve at h
  split at h
  · simp at h
  · split at h
    · simp at h
    · split at h
      · simp at h
      · simp only [Except.ok.injEq] at h
        rw [← h]
        rfl

/-- Witness for C6 with `number_agents = 1` under `"independent"`. -/
theorem multiagent_keys_spec_witness :
    (ResolveOutput.mk
      [("policy_0", PolicySpec.mk none (GymSpace.mk "Box" "o") (GymSpace.mk "Box" "a") [])]
      "agent" ["policy_0"]
      ["policies", "policy_mapping_fn", "policies_to_train"]).multiagentKeys =
      ["policies", "policy_mapping_fn", "policies_to_train"] :=
  multiagent_keys_spec "PPO" "independent" 1 (GymSpace.mk "Box" "o") (GymSpace.mk "Box" "a")
    "agent" _ (by decide)

/-- C2: for strategy `"self_play"` with `number_agents ≥ 2`, under the only
supported run algorithm `"PPO"` and a recognized action-space kind, the
resolver produces the designated policy spec at index 0 with empty extra
options plus `number_agents - 1` playing policy specs (indices
`1 .. number_agents - 1`), each with the non-empty extra-options entry
selecting the deterministic distribution chosen by the action-space kind;
the mapping function is the same index-to-index mapping as for
`"independent"`; and the trainable set is exactly the single policy id at
index 0. -/
theorem self_play_assignment_spec (pfx : String) (n : Nat) (obs act : GymSpace)
    (d : ActionDist) (h2 : 2 ≤ n) (hd : buildActionDist act = Except.ok d) :
    (resolve "PPO" "self_play" n obs act pfx).2 =
      Except.ok (ResolveOutput.mk
        ((get_policy_id (Int.ofNat selfplayPolicyToTrain), PolicySpec.mk none obs act []) ::
          (List.range' 1 (n - 1)).map
            (fun i => (get_policy_id (Int.ofNat i),
              PolicySpec.mk none obs act [("custom_action_dist", d)])))
        pfx
        [get_policy_id (Int.ofNat selfplayPolicyToTrain)]
        ["policies", "policy_mapping_fn", "policies_to_train"]) ∧
    ((get_policy_id (Int.ofNat selfplayPolicyToTrain), PolicySpec.mk none obs act []) ::
      (List.range' 1 (n - 1)).map
        (fun i => (get_policy_id (Int.ofNat i),
          PolicySpec.mk none obs act [("custom_action_dist", d)]))).length = n ∧
    (∀ e ∈ (List.range' 1 (n - 1)).map
      (fun i => (get_policy_id (Int.ofNat i),
        PolicySpec.mk none obs act [("custom_action_dist", d)])),
      e.2.extraOptions ≠ ([] : List (String × ActionDist))) ∧
    (act.className = "Discrete" → d = ActionDist.deterministicCategorical) ∧
    (act.className = "Box" → d = ActionDist.deterministic) ∧
    buildMappingPfx "self_play" pfx = buildMappingPfx "independent" pfx ∧
    (∀ i : Nat, policy_mapping_fn_i2i pfx (pfx ++ "_" ++ decRepr i) =
      Except.ok (get_policy_id (Int.ofNat i))) := by
  refine ⟨?_, ?_, ?_, ?_, ?_, ?_, ?_⟩
  · simp [resolve, buildPoliciesEv, selfPlayPoliciesTrace, hd, buildMappingPfx,
      buildPoliciesToTrainEv, multiagentKeysOf]
  · simp
    omega
  · intro e he
    simp only [List.mem_map, List.mem_range'] at he
    obtain ⟨j, -, rfl⟩ := he
    simp
  · intro hcls
    simp [buildActionDist, hcls] at hd
    exact hd.symm
  · intro hcls
    by_cases hdis : act.className = "Discrete"
    · rw [hdis] at hcls
      simp at hcls
    · simp [buildActionDist, hdis, hcls] at hd
      exact hd.symm
  · rfl
  · intro i
    exact mapping_canonical pfx i

/-- Witness for C2 at `number_agents = 3` with a `Discrete` action space. -/
theorem self_play_assignment_spec_witness :
    (resolve "PPO" "self_play" 3 (GymSpace.mk "Box" "o") (GymSpace.mk "Discrete" "a")
        "agent").2 =
      Except.ok (ResolveOutput.mk
        ((get_policy_id (Int.ofNat selfplayPolicyToTrain),
          PolicySpec.mk none (GymSpace.mk "Box" "o") (GymSpace.mk "Discrete" "a") []) ::
          (List.range' 1 (3 - 1)).map
            (fun i => (get_policy_id (Int.ofNat i),
              PolicySpec.mk none (GymSpace.mk "Box" "o") (GymSpace.mk "Discrete" "a")
                [("custom_action_dist", ActionDist.deterministicCategorical)])))
        "agent"
        [get_policy_id (Int.ofNat selfplayPolicyToTrain)]
        ["policies", "policy_mapping_fn", "policies_to_train"]) :=
  (self_play_assignment_spec "agent" 3 (GymSpace.mk "Box" "o") (GymSpace.mk "Discrete" "a")
    ActionDist.deterministicCategorical (by norm_num) (by decide)).1

/-- C3 counterexample: with run algorithm `"A2C"`, the recognized strategy
`"self_play"` and the recognized `Discrete` action-space kind, resolution
still fails with `NotImplementedError` — a failure case outside the claim's
"exactly when" condition — and the designated policy spec has already been
constructed at the failure point (the partial dict has one entry), against
the claim's "no policy spec is constructed". -/
theorem unsupported_config_counterexample :
    (resolve "A2C" "self_play" 2 (GymSpace.mk "Box" "o") (GymSpace.mk "Discrete" "a")
        "agent").2 = Except.error PyError.notImplementedError ∧
    (selfPlayPoliciesTrace "A2C" 2 (GymSpace.mk "Box" "o")
      (GymSpace.mk "Discrete" "a")).1.length = 1 := by
  decide

/-- C3 (amended): resolution fails with the `NotImplementedError` error
exactly when the strategy is not one of `"independent"`/`"self_play"`, or
the strategy is `"self_play"` and the run algorithm is not `"PPO"` or the
action-space kind is neither `Discrete` nor `Box`; a failure returns no
multiagent output (the exception aborts setup), but under `"self_play"` the
designated trainable policy spec has already been constructed internally
before the failing check. -/
theorem unsupported_config_spec (runAlg strategy : String) (n : Nat) (obs act : GymSpace)
    (pfx : String) :
    ((resolve runAlg strategy n obs act pfx).2 = Except.error PyError.notImplementedError ↔
      ((strategy ≠ "independent" ∧ strategy ≠ "self_play") ∨
        (strategy = "self_play" ∧ (runAlg ≠ "PPO" ∨
          (act.className ≠ "Discrete" ∧ act.className ≠ "Box"))))) ∧
    ((runAlg ≠ "PPO" ∨ (act.className ≠ "Discrete" ∧ act.className ≠ "Box")) →
      selfPlayPoliciesTrace runAlg n obs act =
        ([(get_policy_id (Int.ofNat selfplayPolicyToTrain), PolicySpec.mk none obs act [])],
          some PyError.notImplementedError)) := by
  constructor
  · by_cases hs1 : strategy = "independent"
    · subst hs1
      simp [resolve, buildPoliciesEv, buildMappingPfx, buildPoliciesToTrainEv]
    · by_cases hs2 : strategy = "self_play"
      · subst hs2
        by_cases hr : runAlg = "PPO"
        · subst hr
          by_cases hd1 : act.className = "Discrete"
          · simp [resolve, buildPoliciesEv, selfPlayPoliciesTrace, buildActionDist,
              hd1, buildMappingPfx, buildPoliciesToTrainEv]
          · by_cases hd2 : act.className = "Box"
            · simp [resolve, buildPoliciesEv, selfPlayPoliciesTrace, buildActionDist,
                hd1, hd2, buildMappingPfx, buildPoliciesToTrainEv]
            · simp [resolve, buildPoliciesEv, selfPlayPoliciesTrace, buildActionDist,
                hd1, hd2, buildMappingPfx, buildPoliciesToTrainEv]
        · simp [resolve, buildPoliciesEv, selfPlayPoliciesTrace, hr]
      · simp [resolve, buildPoliciesEv, hs1, hs2]
  · intro h
    unfold selfPlayPoliciesTrace
    by_cases hr : runAlg = "PPO"
    · rcases h with h | ⟨hd1, hd2⟩
      · exact absurd hr h
      · rw [if_pos hr]
        simp [buildActionDist, hd1, hd2]
    · rw [if_neg hr]

/-- C5: with the environment's agent identifiers (modelled from the spec's
naming convention), after successful resolution every agent identifier maps
to exactly one policy id that is a key of the produced policies mapping,
main.py's setup-time coverage check passes, and the check fails exactly
when some agent identifier is not covered (fail-fast before training). -/
theorem agent_coverage_spec (pfx : String) (n : Nat) (obs act : GymSpace) :
    mainAgentToPolicy "independent" pfx n =
      Except.ok ((List.range n).map
        (fun i => (envAgentId pfx i, get_policy_id (Int.ofNat i)))) ∧
    coverageCheck
      ((List.range n).map (fun i => (envAgentId pfx i, get_policy_id (Int.ofNat i))))
      (envAgentIds pfx n) = Except.ok () ∧
    (∀ a ∈ envAgentIds pfx n, ∃! pid,
      dictGet ((List.range n).map
        (fun i => (envAgentId pfx i, get_policy_id (Int.ofNat i)))) a = some pid ∧
      pid ∈ (mainPolicies n obs act).map Prod.fst) ∧
    (∀ a ∈ envAgentIds pfx n, ∃ i : Nat, i < n ∧
      policy_mapping_fn_i2i pfx a = Except.ok (get_policy_id (Int.ofNat i)) ∧
      get_policy_id (Int.ofNat i) ∈ (mainPolicies n obs act).map Prod.fst) ∧
    (∀ (m : List (String × String)) (ids : List String),
      coverageCheck m ids = Except.ok () ↔ ∀ a ∈ ids, (dictGet m a).isSome = true) := by
  have hinj : ∀ a b : Nat, envAgentId pfx a = envAgentId pfx b → a = b := by
    intro a b hab
    have h1 := get_agent_i_canonical pfx a
    rw [hab, get_agent_i_canonical pfx b] at h1
    simp at h1
    omega
  have hget : ∀ i, i < n →
      dictGet ((List.range n).map
        (fun i => (envAgentId pfx i, get_policy_id (Int.ofNat i)))) (envAgentId pfx i) =
        some (get_policy_id (Int.ofNat i)) :=
    fun i hi =>
      dictGet_map_range (envAgentId pfx) (fun j => get_policy_id (Int.ofNat j)) hinj n i hi
  have hiff : ∀ (m : List (String × String)) (ids : List String),
      coverageCheck m ids = Except.ok () ↔ ∀ a ∈ ids, (dictGet m a).isSome = true := by
    intro m ids
    induction ids with
    | nil => simp [coverageCheck]
    | cons a rest ih =>
      by_cases h : (dictGet m a).isSome = true
      · simp [coverageCheck, h, ih]
      · simp [coverageCheck, h]
  refine ⟨rfl, ?_, ?_, ?_, hiff⟩
  · refine (hiff _ _).mpr ?_
    intro a ha
    simp only [envAgentIds, List.mem_map, List.mem_range] at ha
    obtain ⟨i, hi, rfl⟩ := ha
    rw [hget i hi]
    rfl
  · intro a ha
    simp only [envAgentIds, List.mem_map, List.mem_range] at ha
    obtain ⟨i, hi, rfl⟩ := ha
    refine ⟨get_policy_id (Int.ofNat i), ⟨hget i hi, ?_⟩, ?_⟩
    · simp only [mainPolicies, List.map_map, List.mem_map, List.mem_range]
      exact ⟨i, hi, rfl⟩
    · rintro pid ⟨hp1, -⟩
      rw [hget i hi] at hp1
      exact (Option.some_inj.mp hp1).symm
  · intro a ha
    simp only [envAgentIds, List.mem_map, List.mem_range] at ha
    obtain ⟨i, hi, rfl⟩ := ha
    refine ⟨i, hi, mapping_canonical pfx i, ?_⟩
    simp only [mainPolicies, List.map_map, List.mem_map, List.mem_range]
    exact ⟨i, hi, rfl⟩

/-- C7 counterexample: the resolver does perform I/O — under `"self_play"`
it prints a testing warning and blocks on an input prompt, so its console
event trace is not empty. -/
theorem resolver_io_counterexample :
    (resolve "PPO" "self_play" 2 (GymSpace.mk "Box" "o") (GymSpace.mk "Box" "a")
        "agent").1 =
      [ConsoleEvent.printed "# WARNING: Testing.....",
        ConsoleEvent.prompted "# TODO: load learning agent"] ∧
    (resolve "PPO" "self_play" 2 (GymSpace.mk "Box" "o") (GymSpace.mk "Box" "a")
        "agent").1 ≠ ([] : List ConsoleEvent) := by
  decide

/-- C7 (amended): the resolver is deterministic and idempotent — two calls
on identical inputs yield structurally identical results, and the mapping
function is a pure function of the captured prefix and the agent id — and
for every strategy other than `"self_play"` it performs no console I/O;
under `"self_play"` it prints a testing warning (and nothing else when it
fails), and on success it additionally blocks on one input prompt. -/
theorem resolver_pure_spec (runAlg strategy : String) (n : Nat) (obs act : GymSpace)
    (pfx : String) :
    resolve runAlg strategy n obs act pfx = resolve runAlg strategy n obs act pfx ∧
    (∀ a : String, policy_mapping_fn_i2i pfx a = policy_mapping_fn_i2i pfx a) ∧
    (strategy ≠ "self_play" → (resolve runAlg strategy n obs act pfx).1 = []) ∧
    (strategy = "self_play" → ∀ err, (resolve runAlg strategy n obs act pfx).2 =
      Except.error err →
      (resolve runAlg strategy n obs act pfx).1 =
        [ConsoleEvent.printed "# WARNING: Testing....."]) ∧
    (strategy = "self_play" → ∀ out, (resolve runAlg strategy n obs act pfx).2 =
      Except.ok out →
      (resolve runAlg strategy n obs act pfx).1 =
        [ConsoleEvent.printed "# WARNING: Testing.....",
          ConsoleEvent.prompted "# TODO: load learning agent"]) := by
  refine ⟨rfl, fun _ => rfl, ?_, ?_, ?_⟩
  · intro hs
    by_cases hs1 : strategy = "independent"
    · subst hs1
      simp [resolve, buildPoliciesEv, buildMappingPfx, buildPoliciesToTrainEv]
    · simp [resolve, buildPoliciesEv, hs1, hs]
  · intro hs err
    subst hs
    rcases ht : selfPlayPoliciesTrace runAlg n obs act with ⟨ps, e⟩
    cases e with
    | none =>
      simp [resolve, buildPoliciesEv, ht, buildMappingPfx, buildPoliciesToTrainEv]
    | some e0 =>
      intro _
      simp [resolve, buildPoliciesEv, ht]
  · intro hs out
    subst hs
    rcases ht : selfPlayPoliciesTrace runAlg n obs act with ⟨ps, e⟩
    cases e with
    | none =>
      intro _
      simp [resolve, buildPoliciesEv, ht, buildMappingPfx, buildPoliciesToTrainEv]
    | some e0 =>
      simp [resolve, buildPoliciesEv, ht]
